import Mathlib

/-!
V3Global: the top level coordinator of the compiler

A shallow embedding of `src/src/V3Global.h`: the value type `VWidthMinUsage`
and the class `V3Global` with every member function whose body is in the
header.  Pointers are addresses (`0` is `nullptr`), the C `int` counter is an
integer kept in the 32-bit two's complement range, and a failed `UASSERT`
is an `Except.error` carrying the assertion text.
-/

namespace V3

/-! ## Machine level types -/

/-- An address held in a raw pointer (`AstNetlist*`, `V3HierBlockPlan*`,
`const void*`); the address `0` is `nullptr`. -/
abbrev Ptr := Nat

/-- The null pointer. -/
def nullptr : Ptr := 0

/-- Smallest value of the C `int` type (32 bit). -/
def INT_MIN : Int := -2147483648

/-- Largest value of the C `int` type (32 bit). -/
def INT_MAX : Int := 2147483647

/-- The integer is a value of the C `int` type. -/
def isInt (x : Int) : Prop := INT_MIN ≤ x ∧ x ≤ INT_MAX

instance (x : Int) : Decidable (isInt x) := by
  unfold isInt; exact inferInstance

/-- Reduction of an integer result into the 32-bit two's complement range:
what `++` on an `int` leaves in the register. -/
def wrapInt (x : Int) : Int := (x + 2147483648) % 4294967296 - 2147483648

/-! ## VWidthMinUsage -/

/-- Class `VWidthMinUsage`: the member `m_e` of type `enum en : uint8_t`. -/
structure VWidthMinUsage where
  m_e : Fin 256
  deriving DecidableEq, Repr

namespace VWidthMinUsage

/-- Type of the enumeration `en`, whose underlying type is `uint8_t`. -/
abbrev en := Fin 256

/-- Enumerant `LINT_WIDTH`. -/
def LINT_WIDTH : en := 0

/-- Enumerant `MATCHES_WIDTH`. -/
def MATCHES_WIDTH : en := 1

/-- Enumerant `VERILOG_WIDTH`. -/
def VERILOG_WIDTH : en := 2

/-- Default constructor `VWidthMinUsage()`. -/
def ctor : VWidthMinUsage := { m_e := LINT_WIDTH }

/-- Converting constructor `VWidthMinUsage(en _e)`. -/
def ofEn (e : en) : VWidthMinUsage := { m_e := e }

/-- Explicit constructor `VWidthMinUsage(int _e)`: `static_cast<en>(_e)`
converts to the underlying `uint8_t`. -/
def ofInt (e : Int) : VWidthMinUsage := { m_e := Fin.ofNat (e % 256).toNat }

/-- Conversion `operator en() const`. -/
def toEn (w : VWidthMinUsage) : en := w.m_e

/-- Overload `operator==(const VWidthMinUsage&, const VWidthMinUsage&)`. -/
def eqInst (lhs rhs : VWidthMinUsage) : Bool := lhs.m_e == rhs.m_e

/-- Overload `operator==(const VWidthMinUsage&, VWidthMinUsage::en)`. -/
def eqEnR (lhs : VWidthMinUsage) (rhs : en) : Bool := lhs.m_e == rhs

/-- Overload `operator==(VWidthMinUsage::en, const VWidthMinUsage&)`. -/
def eqEnL (lhs : en) (rhs : VWidthMinUsage) : Bool := lhs == rhs.m_e

end VWidthMinUsage

/-! ## Collaborators that the header only names -/

/-- The two accessors of `V3Options` that `V3Global.h` calls: the values
returned by `opt.hierTopDataDir()` and `opt.prefix()`. -/
structure V3Options where
  hierTopDataDir : String
  prefixName : String
  deriving DecidableEq, Repr

/-- Modelled from the spec: the macro `UASSERT` comes from `V3Error.h`, which
is not part of the sources at hand.  The spec says of a failed invariant
check that "this call does not return" and that it "must immediately halt the
run": a false condition ends the computation with the assertion text. -/
def UASSERT (condition : Bool) (stmsg : String) : Except String Unit :=
  if condition then Except.ok () else Except.error stmsg

/-- Modelled from the spec: `makeNetlist()` is declared in the header and
defined elsewhere.  The spec says that `boot` "constructs the netlist root"
and that the root is "never null after boot": the constructed object lives at
a non-null address, here the successor of the slot the allocator picked. -/
def makeNetlist (slot : Nat) : Ptr := slot + 1

/-! ## Formatting with `sprintf(digits, "%03d", n)` -/

/-- Zero padding on the left up to a minimum number of characters. -/
def zeroPad (width : Nat) (ds : List Char) : List Char :=
  List.replicate (width - ds.length) '0' ++ ds

/-- Text written by `sprintf(digits, "%03d", v)`: decimal, minimum field
width three, padded with zeros after the sign. -/
def sprintf03d (v : Int) : String :=
  if v < 0 then String.mk ('-' :: zeroPad 2 (Nat.toDigits 10 v.natAbs))
  else String.mk (zeroPad 3 (Nat.toDigits 10 v.toNat))

/-! ## V3Global -/

/-- Class `V3Global`: its data members. -/
structure V3Global where
  m_rootp : Ptr
  m_hierPlanp : Ptr
  m_widthMinUsage : VWidthMinUsage
  m_debugFileNumber : Int
  m_assertDTypesResolved : Bool
  m_constRemoveXs : Bool
  m_needHeavy : Bool
  m_needTraceDumper : Bool
  m_dpi : Bool
  m_useParallelBuild : Bool
  m_ptrToId : List (Ptr × String)
  opt : V3Options
  deriving DecidableEq, Repr

namespace V3Global

/-- Constructor `V3Global()` together with the default member initializers;
the options object is the one the run was configured with. -/
def ctor (opt : V3Options) : V3Global :=
  { m_rootp := nullptr
    m_hierPlanp := nullptr
    m_widthMinUsage := VWidthMinUsage.ofEn VWidthMinUsage.LINT_WIDTH
    m_debugFileNumber := 0
    m_assertDTypesResolved := false
    m_constRemoveXs := false
    m_needHeavy := false
    m_needTraceDumper := false
    m_dpi := false
    m_useParallelBuild := false
    m_ptrToId := []
    opt := opt }

/-- Member `void boot()`; `slot` is where `makeNetlist()` allocates. -/
def boot (s : V3Global) (slot : Nat) : Except String V3Global := do
  UASSERT (s.m_rootp == nullptr) "call once"
  pure { s with m_rootp := makeNetlist slot }

/-- Member `AstNetlist* rootp() const`. -/
def rootp (s : V3Global) : Ptr := s.m_rootp

/-- Member `VWidthMinUsage widthMinUsage() const`. -/
def widthMinUsage (s : V3Global) : VWidthMinUsage := s.m_widthMinUsage

/-- Member `bool assertDTypesResolved() const`. -/
def assertDTypesResolved (s : V3Global) : Bool := s.m_assertDTypesResolved

/-- Member `void assertDTypesResolved(bool flag)`. -/
def assertDTypesResolvedSet (s : V3Global) (flag : Bool) : V3Global :=
  { s with m_assertDTypesResolved := flag }

/-- Member `void widthMinUsage(const VWidthMinUsage& flag)`. -/
def widthMinUsageSet (s : V3Global) (flag : VWidthMinUsage) : V3Global :=
  { s with m_widthMinUsage := flag }

/-- Member `bool constRemoveXs() const`. -/
def constRemoveXs (s : V3Global) : Bool := s.m_constRemoveXs

/-- Member `void constRemoveXs(bool flag)`. -/
def constRemoveXsSet (s : V3Global) (flag : Bool) : V3Global :=
  { s with m_constRemoveXs := flag }

/-- The two statements of `debugFilename` that update the counter:
`++m_debugFileNumber; if (newNumber) m_debugFileNumber = newNumber;`. -/
def debugFileNumberUpdate (counter newNumber : Int) : Int :=
  let incremented := wrapInt (counter + 1)
  if newNumber ≠ 0 then newNumber else incremented

/-- Member `string debugFilename(const string& nameComment, int newNumber)`:
the returned name and the coordinator with the counter updated. -/
def debugFilename (s : V3Global) (nameComment : String) (newNumber : Int) :
    String × V3Global :=
  let s1 := { s with m_debugFileNumber := debugFileNumberUpdate s.m_debugFileNumber newNumber }
  let digits := sprintf03d s1.m_debugFileNumber
  (s1.opt.hierTopDataDir ++ "/" ++ s1.opt.prefixName ++ "_" ++ digits ++ "_" ++ nameComment, s1)

/-- Call `debugFilename(nameComment)`: the default argument `newNumber = 0`. -/
def debugFilenameDefault (s : V3Global) (nameComment : String) : String × V3Global :=
  debugFilename s nameComment 0

/-- Member `bool needHeavy() const`. -/
def needHeavy (s : V3Global) : Bool := s.m_needHeavy

/-- Member `void needHeavy(bool flag)`. -/
def needHeavySet (s : V3Global) (flag : Bool) : V3Global :=
  { s with m_needHeavy := flag }

/-- Member `bool needTraceDumper() const`. -/
def needTraceDumper (s : V3Global) : Bool := s.m_needTraceDumper

/-- Member `void needTraceDumper(bool flag)`. -/
def needTraceDumperSet (s : V3Global) (flag : Bool) : V3Global :=
  { s with m_needTraceDumper := flag }

/-- Member `bool dpi() const`. -/
def dpi (s : V3Global) : Bool := s.m_dpi

/-- Member `void dpi(bool flag)`. -/
def dpiSet (s : V3Global) (flag : Bool) : V3Global :=
  { s with m_dpi := flag }

/-- Member `V3HierBlockPlan* hierPlanp() const`. -/
def hierPlanp (s : V3Global) : Ptr := s.m_hierPlanp

/-- Member `void hierPlanp(V3HierBlockPlan* plan)`. -/
def hierPlanpSet (s : V3Global) (plan : Ptr) : Except String V3Global := do
  UASSERT (s.m_hierPlanp == nullptr) "call once"
  pure { s with m_hierPlanp := plan }

/-- Member `void useParallelBuild(bool flag)`. -/
def useParallelBuildSet (s : V3Global) (flag : Bool) : V3Global :=
  { s with m_useParallelBuild := flag }

/-- Member `bool useParallelBuild() const`. -/
def useParallelBuild (s : V3Global) : Bool := s.m_useParallelBuild

end V3Global

/-! ## Sequences of coordinator operations -/

/-- One call of a member function whose body is in the header, with its
arguments.  `shutdown`, `readFiles`, `checkTree`, `dumpCheckGlobalTree` and
`ptrToId` are only declared there and are no part of the sequences. -/
inductive Op where
  | boot (slot : Nat)
  | rootp
  | widthMinUsage
  | assertDTypesResolved
  | assertDTypesResolvedSet (flag : Bool)
  | widthMinUsageSet (flag : VWidthMinUsage)
  | constRemoveXs
  | constRemoveXsSet (flag : Bool)
  | debugFilename (nameComment : String) (newNumber : Int)
  | needHeavy
  | needHeavySet (flag : Bool)
  | needTraceDumper
  | needTraceDumperSet (flag : Bool)
  | dpi
  | dpiSet (flag : Bool)
  | hierPlanp
  | hierPlanpSet (plan : Ptr)
  | useParallelBuildSet (flag : Bool)
  | useParallelBuild
  deriving DecidableEq, Repr

namespace V3Global

/-- The coordinator after one call; the `const` accessors leave it as it
is, a failed assertion ends the run. -/
def step (s : V3Global) : Op → Except String V3Global
  | Op.boot slot => s.boot slot
  | Op.rootp => pure s
  | Op.widthMinUsage => pure s
  | Op.assertDTypesResolved => pure s
  | Op.assertDTypesResolvedSet flag => pure (s.assertDTypesResolvedSet flag)
  | Op.widthMinUsageSet flag => pure (s.widthMinUsageSet flag)
  | Op.constRemoveXs => pure s
  | Op.constRemoveXsSet flag => pure (s.constRemoveXsSet flag)
  | Op.debugFilename nameComment newNumber => pure (s.debugFilename nameComment newNumber).2
  | Op.needHeavy => pure s
  | Op.needHeavySet flag => pure (s.needHeavySet flag)
  | Op.needTraceDumper => pure s
  | Op.needTraceDumperSet flag => pure (s.needTraceDumperSet flag)
  | Op.dpi => pure s
  | Op.dpiSet flag => pure (s.dpiSet flag)
  | Op.hierPlanp => pure s
  | Op.hierPlanpSet plan => s.hierPlanpSet plan
  | Op.useParallelBuildSet flag => pure (s.useParallelBuildSet flag)
  | Op.useParallelBuild => pure s

/-- The coordinator after a sequence of calls made one after the other; the
first failed assertion ends the run. -/
def run (s : V3Global) : List Op → Except String V3Global
  | [] => pure s
  | op :: ops =>
    match s.step op with
    | Except.ok s1 => run s1 ops
    | Except.error msg => Except.error msg

/-- The coordinator after `k` calls `debugFilename(nameComment)` in a row. -/
def debugFilenameCalls (s : V3Global) (nameComment : String) : Nat → V3Global
  | 0 => s
  | k + 1 => ((debugFilenameCalls s nameComment k).debugFilenameDefault nameComment).2

/-- The name returned by the `k`-th call (`k ≥ 1`) of a row of calls
`debugFilename(nameComment)`. -/
def debugFilenameKth (s : V3Global) (nameComment : String) (k : Nat) : String :=
  ((debugFilenameCalls s nameComment (k - 1)).debugFilenameDefault nameComment).1

/-- Options of the worked examples: directory `out`, prefix `Vtop`. -/
def exampleOpt : V3Options := { hierTopDataDir := "out", prefixName := "Vtop" }

end V3Global

/-! ## The checkpoint namer as the specification words it -/

/-- Decimal representation of an integer: the digits, after a minus sign
when it is negative. -/
def decimal (v : Int) : List Char :=
  if v < 0 then '-' :: Nat.toDigits 10 v.natAbs else Nat.toDigits 10 v.toNat

/-- The field `NNN` in the words of the specification: "a decimal counter,
left-zero-padded to at least 3 digits". -/
def specNNN (counter : Int) : String := String.mk (zeroPad 3 (decimal counter))

/-- The checkpoint name in the words of the specification:
`{outputDir}/{prefix}_{NNN}_{stageComment}`. -/
def specDebugFilename (outputDir runPrefix : String) (counter : Int) (stageComment : String) :
    String :=
  outputDir ++ "/" ++ runPrefix ++ "_" ++ specNNN counter ++ "_" ++ stageComment

/-- The transition in the words of the specification:
`counter := explicitNumber if explicitNumber != 0 else counter + 1`. -/
def specTransition (counter explicitNumber : Int) : Int :=
  if explicitNumber ≠ 0 then explicitNumber else counter + 1

/-- Number of decimal digits among the characters of a text. -/
def digitCount (text : String) : Nat := (text.data.filter Char.isDigit).length

/-! ## Observations used by the frame properties -/

namespace V3Global

/-- The six flags as their getters return them, in the order `needHeavy`,
`needTraceDumper`, `dpi`, `useParallelBuild`, `constRemoveXs`,
`assertDTypesResolved`. -/
def flags (s : V3Global) : List Bool :=
  [s.needHeavy, s.needTraceDumper, s.dpi, s.useParallelBuild, s.constRemoveXs,
    s.assertDTypesResolved]

/-- Everything the coordinator holds besides the six flags: the netlist
root, the hier-block plan, the width-usage mode, the debug counter, the
identity map and the options. -/
def besidesFlags (s : V3Global) :
    Ptr × Ptr × VWidthMinUsage × Int × List (Ptr × String) × V3Options :=
  (s.rootp, s.hierPlanp, s.widthMinUsage, s.m_debugFileNumber, s.m_ptrToId, s.opt)

end V3Global

/-! ## Valid modes, the digits buffer, runs of checkpoint requests -/

/-- The value holds one of the three enumerants `LINT_WIDTH`,
`MATCHES_WIDTH`, `VERILOG_WIDTH`. -/
def VWidthMinUsage.isValidMode (w : VWidthMinUsage) : Prop :=
  w.m_e = VWidthMinUsage.LINT_WIDTH ∨ w.m_e = VWidthMinUsage.MATCHES_WIDTH ∨
    w.m_e = VWidthMinUsage.VERILOG_WIDTH

instance (w : VWidthMinUsage) : Decidable w.isValidMode := by
  unfold VWidthMinUsage.isValidMode; exact inferInstance

/-- Size in bytes of the local array `char digits[100]` of `debugFilename`. -/
def digitsSize : Nat := 100

/-- Number that a list of decimal digit characters denotes, leading zeros
allowed. -/
def digitsValue (ds : List Char) : Nat :=
  ds.foldl (fun acc c => 10 * acc + (c.toNat - 48)) 0

/-- Integer that a text written by `%03d` denotes: a leading minus sign
negates the number after it. -/
def sprintfValue : List Char → Int
  | [] => 0
  | c :: cs =>
    if c = '-' then -((digitsValue cs : Nat) : Int) else ((digitsValue (c :: cs) : Nat) : Int)

namespace V3Global

/-- The names returned by a run of calls `debugFilename(comment)` without a
number, one call for each comment of the list, in order. -/
def debugFilenameRun (s : V3Global) : List String → List String
  | [] => []
  | nameComment :: rest =>
    (s.debugFilenameDefault nameComment).1 ::
      debugFilenameRun (s.debugFilenameDefault nameComment).2 rest

/-- Modelled from the spec: the short label given to the `n`-th identity
seen.  The spec leaves the scheme open ("implementation is free to choose a
deterministic short-token scheme", "sequential short tokens"): here the token
is the decimal numeral of `n`. -/
def idLabel (n : Nat) : String := String.mk (Nat.toDigits 10 n)

/-- Modelled from the spec: `ptrToId` is declared in the header, its body is
elsewhere.  The spec: "Lookup-or-insert map keyed by opaque object identity.
First access for a given identity allocates a new short label and records the
pair; subsequent accesses for the same identity return the previously
assigned label unchanged", "no removal".  The new label is the token of the
number of identities recorded so far. -/
def ptrToId (s : V3Global) (p : Ptr) : String × V3Global :=
  match s.m_ptrToId.lookup p with
  | some label => (label, s)
  | none =>
    let label := idLabel s.m_ptrToId.length
    (label, { s with m_ptrToId := (p, label) :: s.m_ptrToId })

/-- The identity map as lookups build it from the empty map: the newest
entry first, its identity not recorded before, its label the token of the
number of entries recorded before it. -/
def labelsInOrder : List (Ptr × String) → Prop
  | [] => True
  | (p, label) :: m => label = idLabel m.length ∧ m.lookup p = none ∧ labelsInOrder m

/-- The coordinator after `ptrToId` was called on each identity of the list,
in order. -/
def ptrToIdCalls (s : V3Global) : List Ptr → V3Global
  | [] => s
  | p :: ps => ptrToIdCalls (s.ptrToId p).2 ps

end V3Global

/-! ## Call-once installs: `boot` and the `hierPlanp` setter -/

namespace V3Global

theorem boot_of_null (s : V3Global) (slot : Nat) (h : s.m_rootp = nullptr) :
    s.boot slot = Except.ok { s with m_rootp := makeNetlist slot } := by
  simp [boot, UASSERT, h, bind, Except.bind, pure, Except.pure]

theorem boot_of_nonnull (s : V3Global) (slot : Nat) (h : s.m_rootp ≠ nullptr) :
    s.boot slot = Except.error "call once" := by
  simp [boot, UASSERT, h, bind, Except.bind]

theorem hierPlanpSet_of_null (s : V3Global) (plan : Ptr) (h : s.m_hierPlanp = nullptr) :
    s.hierPlanpSet plan = Except.ok { s with m_hierPlanp := plan } := by
  simp [hierPlanpSet, UASSERT, h, bind, Except.bind, pure, Except.pure]

theorem hierPlanpSet_of_nonnull (s : V3Global) (plan : Ptr) (h : s.m_hierPlanp ≠ nullptr) :
    s.hierPlanpSet plan = Except.error "call once" := by
  simp [hierPlanpSet, UASSERT, h, bind, Except.bind]

theorem makeNetlist_ne_nullptr (slot : Nat) : makeNetlist slot ≠ nullptr := by
  simp [makeNetlist, nullptr]

/-- A successful `boot` found the root null and stored the new netlist. -/
theorem boot_ok (s s1 : V3Global) (slot : Nat) (h : s.boot slot = Except.ok s1) :
    s.m_rootp = nullptr ∧ s1 = { s with m_rootp := makeNetlist slot } := by
  by_cases h0 : s.m_rootp = nullptr
  · rw [boot_of_null s slot h0] at h
    exact ⟨h0, (Except.ok.inj h).symm⟩
  · rw [boot_of_nonnull s slot h0] at h
    cases h

/-- A successful install found the plan null and stored the argument. -/
theorem hierPlanpSet_ok (s s1 : V3Global) (plan : Ptr)
    (h : s.hierPlanpSet plan = Except.ok s1) :
    s.m_hierPlanp = nullptr ∧ s1 = { s with m_hierPlanp := plan } := by
  by_cases h0 : s.m_hierPlanp = nullptr
  · rw [hierPlanpSet_of_null s plan h0] at h
    exact ⟨h0, (Except.ok.inj h).symm⟩
  · rw [hierPlanpSet_of_nonnull s plan h0] at h
    cases h

/-- No call other than `boot` writes the root. -/
theorem step_rootp_of_not_boot (s s1 : V3Global) (op : Op) (hop : ∀ slot, op ≠ Op.boot slot)
    (h : s.step op = Except.ok s1) : s1.m_rootp = s.m_rootp := by
  cases op with
  | boot slot => exact absurd rfl (hop slot)
  | hierPlanpSet plan =>
    obtain ⟨_, rfl⟩ := hierPlanpSet_ok s s1 plan h
    rfl
  | _ =>
    cases Except.ok.inj h
    rfl

/-- A non-null root survives every successful call. -/
theorem step_rootp_of_nonnull (s s1 : V3Global) (op : Op) (h0 : s.m_rootp ≠ nullptr)
    (h : s.step op = Except.ok s1) : s1.m_rootp = s.m_rootp := by
  cases op with
  | boot slot =>
    have hb : s.boot slot = Except.ok s1 := h
    rw [boot_of_nonnull s slot h0] at hb
    cases hb
  | hierPlanpSet plan =>
    obtain ⟨_, rfl⟩ := hierPlanpSet_ok s s1 plan h
    rfl
  | _ =>
    cases Except.ok.inj h
    rfl

/-- A non-null plan survives every successful call. -/
theorem step_hierPlanp_of_nonnull (s s1 : V3Global) (op : Op)
    (h0 : s.m_hierPlanp ≠ nullptr) (h : s.step op = Except.ok s1) :
    s1.m_hierPlanp = s.m_hierPlanp := by
  cases op with
  | boot slot =>
    obtain ⟨_, rfl⟩ := boot_ok s s1 slot h
    rfl
  | hierPlanpSet plan =>
    have hb : s.hierPlanpSet plan = Except.ok s1 := h
    rw [hierPlanpSet_of_nonnull s plan h0] at hb
    cases hb
  | _ =>
    cases Except.ok.inj h
    rfl

theorem run_cons_ok (s s2 : V3Global) (op : Op) (ops : List Op)
    (h : s.run (op :: ops) = Except.ok s2) :
    ∃ s1, s.step op = Except.ok s1 ∧ s1.run ops = Except.ok s2 := by
  unfold run at h
  cases hs : s.step op with
  | ok s1 =>
    rw [hs] at h
    exact ⟨s1, rfl, h⟩
  | error msg =>
    rw [hs] at h
    cases h

theorem run_rootp_of_nonnull (ops : List Op) :
    ∀ (s s1 : V3Global), s.m_rootp ≠ nullptr → s.run ops = Except.ok s1 →
      s1.m_rootp = s.m_rootp := by
  induction ops with
  | nil =>
    intro s s1 _ h
    cases Except.ok.inj h
    rfl
  | cons op ops ih =>
    intro s s2 h0 h
    obtain ⟨s1, hs, hr⟩ := run_cons_ok s s2 op ops h
    have h1 := step_rootp_of_nonnull s s1 op h0 hs
    rw [ih s1 s2 (by rw [h1]; exact h0) hr, h1]

theorem run_hierPlanp_of_nonnull (ops : List Op) :
    ∀ (s s1 : V3Global), s.m_hierPlanp ≠ nullptr → s.run ops = Except.ok s1 →
      s1.m_hierPlanp = s.m_hierPlanp := by
  induction ops with
  | nil =>
    intro s s1 _ h
    cases Except.ok.inj h
    rfl
  | cons op ops ih =>
    intro s s2 h0 h
    obtain ⟨s1, hs, hr⟩ := run_cons_ok s s2 op ops h
    have h1 := step_hierPlanp_of_nonnull s s1 op h0 hs
    rw [ih s1 s2 (by rw [h1]; exact h0) hr, h1]

/-- C1: in every state reached from a call of `boot()` that succeeded and
any calls after it, a further `boot()` fails with the assertion "call once"
and constructs no netlist root. -/
theorem boot_twice_fatal (s0 s : V3Global) (slot slot2 : Nat) (ops : List Op)
    (h : s0.run (Op.boot slot :: ops) = Except.ok s) :
    s.boot slot2 = Except.error "call once" := by
  obtain ⟨s1, hs, hr⟩ := run_cons_ok s0 s (Op.boot slot) ops h
  obtain ⟨_, rfl⟩ := boot_ok s0 s1 slot hs
  have h1 := run_rootp_of_nonnull ops _ s (makeNetlist_ne_nullptr slot) hr
  exact boot_of_nonnull s slot2 (by rw [h1]; exact makeNetlist_ne_nullptr slot)

theorem boot_twice_fatal_witness :
    ∃ s, (ctor exampleOpt).run
        [Op.boot 7, Op.needHeavySet true, Op.hierPlanpSet 3, Op.debugFilename "elab" 0]
          = Except.ok s ∧ s.boot 8 = Except.error "call once" :=
  ⟨_, rfl, boot_twice_fatal (ctor exampleOpt) _ 7 8
    [Op.needHeavySet true, Op.hierPlanpSet 3, Op.debugFilename "elab" 0] rfl⟩

/-- C2: after the one `boot()` on a fresh coordinator `rootp()` is not null,
and after every later sequence of calls that does not fail `rootp()` is the
handle that `boot()` stored; no call other than `boot` writes the root. -/
theorem rootp_stable_after_boot (opt : V3Options) (slot : Nat) (ops : List Op) (s : V3Global)
    (h : (ctor opt).run (Op.boot slot :: ops) = Except.ok s) :
    (∃ s1, (ctor opt).boot slot = Except.ok s1 ∧ s1.rootp ≠ nullptr ∧ s.rootp = s1.rootp) ∧
    s.rootp ≠ nullptr ∧
    (∀ (t t1 : V3Global) (op : Op), (∀ k, op ≠ Op.boot k) → t.step op = Except.ok t1 →
      t1.rootp = t.rootp) := by
  obtain ⟨s1, hs, hr⟩ := run_cons_ok (ctor opt) s (Op.boot slot) ops h
  have hb : (ctor opt).boot slot = Except.ok s1 := hs
  obtain ⟨_, hs1⟩ := boot_ok (ctor opt) s1 slot hb
  have hne : s1.m_rootp ≠ nullptr := by
    rw [hs1]; exact makeNetlist_ne_nullptr slot
  have h1 := run_rootp_of_nonnull ops s1 s hne hr
  refine ⟨⟨s1, hb, hne, h1⟩, ?_, ?_⟩
  · show s.m_rootp ≠ nullptr
    rw [h1]; exact hne
  · intro t t1 op hop ht
    exact step_rootp_of_not_boot t t1 op hop ht

theorem rootp_stable_after_boot_witness :
    ∃ s, (ctor exampleOpt).run
        [Op.boot 7, Op.dpiSet true, Op.rootp, Op.hierPlanpSet 3, Op.debugFilename "elab" 50]
          = Except.ok s ∧ s.rootp = 8 :=
  ⟨_, rfl, by
    obtain ⟨⟨s1, hb, _, hs⟩, _, _⟩ := rootp_stable_after_boot exampleOpt 7
      [Op.dpiSet true, Op.rootp, Op.hierPlanpSet 3, Op.debugFilename "elab" 50] _ rfl
    rw [hs]
    cases Except.ok.inj hb
    rfl⟩

/-- C3, the claim at a null first argument: on a fresh coordinator
`hierPlanp(nullptr)` succeeds and leaves the plan null, so the second call
`hierPlanp(5)` succeeds too and installs `5`. -/
theorem hierPlanp_second_call_after_null_installs :
    (ctor exampleOpt).hierPlanpSet nullptr = Except.ok (ctor exampleOpt) ∧
    (ctor exampleOpt).hierPlanpSet 5 = Except.ok { ctor exampleOpt with m_hierPlanp := 5 } ∧
    ¬ (∀ (p q : Ptr) (s1 : V3Global), (ctor exampleOpt).hierPlanpSet p = Except.ok s1 →
        s1.hierPlanpSet q = Except.error "call once") := by
  refine ⟨rfl, rfl, fun hall => ?_⟩
  have h := hall nullptr 5 (ctor exampleOpt) rfl
  cases h

/-- C3 as amended: for a first argument `p` that is not null and every `q`,
the first `hierPlanp(p)` on a fresh coordinator succeeds and stores `p`, and
the second call `hierPlanp(q)` fails with "call once", so no state with `q`
installed results. -/
theorem hierPlanp_twice_fatal (opt : V3Options) (p q : Ptr) (hp : p ≠ nullptr) :
    ∃ s1, (ctor opt).hierPlanpSet p = Except.ok s1 ∧ s1.hierPlanp = p ∧
      s1.hierPlanpSet q = Except.error "call once" ∧
      ∀ s2, s1.hierPlanpSet q ≠ Except.ok s2 := by
  refine ⟨{ ctor opt with m_hierPlanp := p }, hierPlanpSet_of_null _ p rfl, rfl, ?_, ?_⟩
  · exact hierPlanpSet_of_nonnull _ q hp
  · intro s2 h2
    rw [hierPlanpSet_of_nonnull _ q (by exact hp)] at h2
    cases h2

theorem hierPlanp_twice_fatal_witness :
    ∃ s1, (ctor exampleOpt).hierPlanpSet 3 = Except.ok s1 ∧ s1.hierPlanp = 3 ∧
      s1.hierPlanpSet 5 = Except.error "call once" ∧
      ∀ s2, s1.hierPlanpSet 5 ≠ Except.ok s2 :=
  hierPlanp_twice_fatal exampleOpt 3 5 (by decide)

/-- C4: when the first `hierPlanp(p)` installs a plan (a handle that is not
null), `hierPlanp()` returns `p` after every later sequence of calls that
does not fail. -/
theorem hierPlanp_stable_after_install (s0 s : V3Global) (p : Ptr) (ops : List Op)
    (hp : p ≠ nullptr) (h : s0.run (Op.hierPlanpSet p :: ops) = Except.ok s) :
    s.hierPlanp = p := by
  obtain ⟨s1, hs, hr⟩ := run_cons_ok s0 s (Op.hierPlanpSet p) ops h
  obtain ⟨_, rfl⟩ := hierPlanpSet_ok s0 s1 p hs
  exact run_hierPlanp_of_nonnull ops _ s hp hr

theorem hierPlanp_stable_after_install_witness :
    ∃ s, (ctor exampleOpt).run
        [Op.hierPlanpSet 3, Op.boot 7, Op.widthMinUsageSet (VWidthMinUsage.ofInt 2),
          Op.debugFilename "elab" 0, Op.hierPlanp]
          = Except.ok s ∧ s.hierPlanp = 3 :=
  ⟨_, rfl, hierPlanp_stable_after_install (ctor exampleOpt) _ 3
    [Op.boot 7, Op.widthMinUsageSet (VWidthMinUsage.ofInt 2),
      Op.debugFilename "elab" 0, Op.hierPlanp] (by decide) rfl⟩

end V3Global

/-! ## The debug checkpoint namer -/

theorem wrapInt_of_isInt (x : Int) (h : isInt x) : wrapInt x = x := by
  unfold isInt INT_MIN INT_MAX at h
  unfold wrapInt
  omega

theorem wrapInt_succ_wrapInt (x : Int) : wrapInt (wrapInt x + 1) = wrapInt (x + 1) := by
  unfold wrapInt
  omega

theorem toDigitsCore_length_acc (f : Nat) : ∀ (n : Nat) (acc : List Char),
    acc.length ≤ (Nat.toDigitsCore 10 f n acc).length := by
  induction f with
  | zero => intro n acc; simp [Nat.toDigitsCore]
  | succ f ih =>
    intro n acc
    simp only [Nat.toDigitsCore]
    split
    · simp
    · exact Nat.le_trans (by simp) (ih (n / 10) (Nat.digitChar (n % 10) :: acc))

/-- A number of at least `10 ^ e` has more than `e` decimal digits. -/
theorem toDigitsCore_length_ge (e : Nat) : ∀ (f n : Nat) (acc : List Char),
    10 ^ e ≤ n → e < f → acc.length + e + 1 ≤ (Nat.toDigitsCore 10 f n acc).length := by
  induction e with
  | zero =>
    intro f n acc _ hf
    obtain ⟨f, rfl⟩ : ∃ g, f = g + 1 := ⟨f - 1, by omega⟩
    simp only [Nat.toDigitsCore]
    split
    · simp
    · exact Nat.le_trans (by simp)
        (toDigitsCore_length_acc f (n / 10) (Nat.digitChar (n % 10) :: acc))
  | succ e ih =>
    intro f n acc hn hf
    obtain ⟨f, rfl⟩ : ∃ g, f = g + 1 := ⟨f - 1, by omega⟩
    have hdiv : 10 ^ e ≤ n / 10 := by
      rw [Nat.le_div_iff_mul_le (by decide)]
      rw [pow_succ] at hn
      exact hn
    have hne : n / 10 ≠ 0 := by
      have : 0 < 10 ^ e := by positivity
      omega
    simp only [Nat.toDigitsCore, hne, if_false]
    have := ih f (n / 10) (Nat.digitChar (n % 10) :: acc) hdiv (by omega)
    simp only [List.length_cons] at this
    omega

theorem toDigits_length_gt_three (n : Nat) (h : 999 < n) :
    3 < (Nat.toDigits 10 n).length := by
  have := toDigitsCore_length_ge 3 (n + 1) n [] (by norm_num; omega) (by omega)
  simp only [List.length_nil] at this
  unfold Nat.toDigits
  omega

theorem zeroPad_of_le (width : Nat) (ds : List Char) (h : width ≤ ds.length) :
    zeroPad width ds = ds := by
  simp [zeroPad, Nat.sub_eq_zero_of_le h]

/-- For a counter that is not negative `sprintf` writes the field the
specification describes. -/
theorem sprintf03d_of_nonneg (v : Int) (h : 0 ≤ v) : sprintf03d v = specNNN v := by
  have hn : ¬ v < 0 := by omega
  simp [sprintf03d, specNNN, decimal, hn]

namespace V3Global

theorem debugFilename_fst (s : V3Global) (nameComment : String) (newNumber : Int) :
    (s.debugFilename nameComment newNumber).1 =
      s.opt.hierTopDataDir ++ "/" ++ s.opt.prefixName ++ "_" ++
        sprintf03d (debugFileNumberUpdate s.m_debugFileNumber newNumber) ++ "_" ++ nameComment :=
  rfl

theorem debugFilename_counter (s : V3Global) (nameComment : String) (newNumber : Int) :
    (s.debugFilename nameComment newNumber).2.m_debugFileNumber =
      debugFileNumberUpdate s.m_debugFileNumber newNumber :=
  rfl

theorem debugFilename_opt (s : V3Global) (nameComment : String) (newNumber : Int) :
    (s.debugFilename nameComment newNumber).2.opt = s.opt :=
  rfl

theorem debugFileNumberUpdate_zero (counter : Int) :
    debugFileNumberUpdate counter 0 = wrapInt (counter + 1) := by
  simp [debugFileNumberUpdate]

theorem debugFileNumberUpdate_of_ne_zero (counter newNumber : Int) (h : newNumber ≠ 0) :
    debugFileNumberUpdate counter newNumber = newNumber := by
  simp [debugFileNumberUpdate, h]

theorem debugFilenameCalls_opt (s : V3Global) (nameComment : String) (k : Nat) :
    (debugFilenameCalls s nameComment k).opt = s.opt := by
  induction k with
  | zero => rfl
  | succ k ih => exact ih

/-- Counter of a fresh coordinator after `k` calls without a number. -/
theorem debugFilenameCalls_counter (opt : V3Options) (nameComment : String) (k : Nat) :
    (debugFilenameCalls (ctor opt) nameComment k).m_debugFileNumber = wrapInt k := by
  induction k with
  | zero => rfl
  | succ k ih =>
    show debugFileNumberUpdate (debugFilenameCalls (ctor opt) nameComment k).m_debugFileNumber 0
      = wrapInt ((k + 1 : Nat) : Int)
    rw [debugFileNumberUpdate_zero, ih, wrapInt_succ_wrapInt]
    rfl

/-- C5, the claim at the call number `2147483648`: the call number
`2147483647` leaves the counter at `INT_MAX`, the next call wraps the `int`
to `-2147483648`, which is neither the call number nor an increase. -/
theorem debugFilename_counter_wraps_after_int_max :
    (debugFilenameCalls (ctor exampleOpt) "elab" 2147483647).m_debugFileNumber = 2147483647 ∧
    (debugFilenameCalls (ctor exampleOpt) "elab" 2147483648).m_debugFileNumber = -2147483648 ∧
    (debugFilenameCalls (ctor exampleOpt) "elab" 2147483648).m_debugFileNumber
      ≠ ((2147483648 : Nat) : Int) := by
  rw [debugFilenameCalls_counter, debugFilenameCalls_counter]
  decide

/-- C5 as amended: on a fresh coordinator, for every `k` from `1` up to
`INT_MAX` the `k`-th call `debugFilename(comment)` uses the counter value `k`,
which is above the value of the call before; with directory `out`, prefix
`Vtop` and comment `elab` the first three names are `out/Vtop_001_elab`,
`out/Vtop_002_elab`, `out/Vtop_003_elab`. -/
theorem debugFilename_kth_call (opt : V3Options) (nameComment : String) (k : Nat)
    (h1 : 1 ≤ k) (h2 : (k : Int) ≤ INT_MAX) :
    (debugFilenameCalls (ctor opt) nameComment k).m_debugFileNumber = k ∧
    debugFilenameKth (ctor opt) nameComment k =
      opt.hierTopDataDir ++ "/" ++ opt.prefixName ++ "_" ++ sprintf03d k ++ "_" ++ nameComment ∧
    (debugFilenameCalls (ctor opt) nameComment (k - 1)).m_debugFileNumber
      < (debugFilenameCalls (ctor opt) nameComment k).m_debugFileNumber ∧
    debugFilenameKth (ctor exampleOpt) "elab" 1 = "out/Vtop_001_elab" ∧
    debugFilenameKth (ctor exampleOpt) "elab" 2 = "out/Vtop_002_elab" ∧
    debugFilenameKth (ctor exampleOpt) "elab" 3 = "out/Vtop_003_elab" := by
  have hk : wrapInt (k : Int) = k :=
    wrapInt_of_isInt _ ⟨by unfold INT_MIN; omega, h2⟩
  have hk1 : wrapInt ((k - 1 : Nat) : Int) = ((k - 1 : Nat) : Int) :=
    wrapInt_of_isInt _ ⟨by unfold INT_MIN; omega, by unfold INT_MAX at *; omega⟩
  have hsucc : (((k - 1 : Nat) : Int) + 1) = (k : Int) := by omega
  refine ⟨?_, ?_, ?_, by decide, by decide, by decide⟩
  · rw [debugFilenameCalls_counter, hk]
  · unfold debugFilenameKth debugFilenameDefault
    rw [debugFilename_fst, debugFilenameCalls_opt, debugFilenameCalls_counter,
      debugFileNumberUpdate_zero, hk1, hsucc, hk]
    rfl
  · rw [debugFilenameCalls_counter, debugFilenameCalls_counter, hk, hk1]
    omega

theorem debugFilename_kth_call_witness :
    (debugFilenameCalls (ctor exampleOpt) "elab" 2).m_debugFileNumber = 2 ∧
    debugFilenameKth (ctor exampleOpt) "elab" 2 = "out/Vtop_002_elab" :=
  ⟨(debugFilename_kth_call exampleOpt "elab" 2 (by decide) (by decide)).1,
   (debugFilename_kth_call exampleOpt "elab" 2 (by decide) (by decide)).2.2.2.2.1⟩

/-- C6, the claim at the explicit number `INT_MAX`: `debugFilename("dump",
2147483647)` sets the counter to `2147483647`, and the following call without
a number wraps it to `-2147483648`, not to `2147483648`. -/
theorem debugFilename_after_int_max_wraps :
    ((ctor exampleOpt).debugFilename "dump" 2147483647).2.m_debugFileNumber = 2147483647 ∧
    ((((ctor exampleOpt).debugFilename "dump" 2147483647).2.debugFilenameDefault
      "dump").2.m_debugFileNumber = -2147483648) ∧
    ((((ctor exampleOpt).debugFilename "dump" 2147483647).2.debugFilenameDefault
      "dump").2.m_debugFileNumber ≠ 2147483647 + 1) := by
  refine ⟨by decide, by decide, by decide⟩

/-- C6 as amended: for every prior counter and every explicit number `N` of
type `int` that is neither zero nor `INT_MAX`, `debugFilename(comment, N)`
sets the counter to `N`, the returned name carries `N` whatever the prior
counter was, and the following call without a number carries `N + 1`;
`debugFilename("dump", 50)` gives the counter 50 and the next call 51. -/
theorem debugFilename_explicit_number (s : V3Global) (nameComment nextComment : String)
    (N : Int) (h0 : N ≠ 0) (hlo : INT_MIN ≤ N) (hhi : N < INT_MAX) :
    (s.debugFilename nameComment N).2.m_debugFileNumber = N ∧
    (s.debugFilename nameComment N).1 =
      s.opt.hierTopDataDir ++ "/" ++ s.opt.prefixName ++ "_" ++ sprintf03d N ++ "_" ++
        nameComment ∧
    (∀ t : V3Global, t.opt = s.opt →
      (t.debugFilename nameComment N).1 = (s.debugFilename nameComment N).1) ∧
    ((s.debugFilename nameComment N).2.debugFilenameDefault nextComment).2.m_debugFileNumber
      = N + 1 ∧
    ((s.debugFilename nameComment N).2.debugFilenameDefault nextComment).1 =
      s.opt.hierTopDataDir ++ "/" ++ s.opt.prefixName ++ "_" ++ sprintf03d (N + 1) ++ "_" ++
        nextComment ∧
    ((ctor exampleOpt).debugFilename "dump" 50).1 = "out/Vtop_050_dump" ∧
    (((ctor exampleOpt).debugFilename "dump" 50).2.debugFilenameDefault "dump").1
      = "out/Vtop_051_dump" := by
  have hw : wrapInt (N + 1) = N + 1 :=
    wrapInt_of_isInt _ ⟨by unfold INT_MIN at *; omega, by unfold INT_MAX at *; omega⟩
  refine ⟨?_, ?_, ?_, ?_, ?_, by decide, by decide⟩
  · rw [debugFilename_counter, debugFileNumberUpdate_of_ne_zero _ _ h0]
  · rw [debugFilename_fst, debugFileNumberUpdate_of_ne_zero _ _ h0]
  · intro t ht
    rw [debugFilename_fst, debugFilename_fst, debugFileNumberUpdate_of_ne_zero _ _ h0,
      debugFileNumberUpdate_of_ne_zero _ _ h0, ht]
  · unfold debugFilenameDefault
    rw [debugFilename_counter, debugFilename_counter, debugFileNumberUpdate_of_ne_zero _ _ h0,
      debugFileNumberUpdate_zero, hw]
  · unfold debugFilenameDefault
    rw [debugFilename_fst, debugFilename_counter, debugFilename_opt,
      debugFileNumberUpdate_of_ne_zero _ _ h0, debugFileNumberUpdate_zero, hw]

theorem debugFilename_explicit_number_witness :
    (((ctor exampleOpt).debugFilename "elab" 7).2.debugFilename "dump" 50).2.m_debugFileNumber
      = 50 ∧
    ((((ctor exampleOpt).debugFilename "elab" 7).2.debugFilename "dump" 50).2.debugFilenameDefault
      "next").2.m_debugFileNumber = 50 + 1 :=
  ⟨(debugFilename_explicit_number ((ctor exampleOpt).debugFilename "elab" 7).2 "dump" "next" 50
      (by decide) (by decide) (by decide)).1,
   (debugFilename_explicit_number ((ctor exampleOpt).debugFilename "elab" 7).2 "dump" "next" 50
      (by decide) (by decide) (by decide)).2.2.2.1⟩

end V3Global

theorem digitChar_isDigit (d : Nat) (h : d < 10) : (Nat.digitChar d).isDigit = true := by
  interval_cases d <;> decide

theorem toDigitsCore_all_isDigit (f : Nat) : ∀ (n : Nat) (acc : List Char),
    (∀ c ∈ acc, c.isDigit = true) → ∀ c ∈ Nat.toDigitsCore 10 f n acc, c.isDigit = true := by
  induction f with
  | zero => intro n acc h; simpa [Nat.toDigitsCore] using h
  | succ f ih =>
    intro n acc h
    have hd : (Nat.digitChar (n % 10)).isDigit = true :=
      digitChar_isDigit _ (Nat.mod_lt _ (by decide))
    have hacc : ∀ c ∈ Nat.digitChar (n % 10) :: acc, c.isDigit = true := by
      intro c hc
      rcases List.mem_cons.mp hc with rfl | hc
      · exact hd
      · exact h c hc
    simp only [Nat.toDigitsCore]
    split
    · exact hacc
    · exact ih (n / 10) _ hacc

theorem toDigits_all_isDigit (n : Nat) : ∀ c ∈ Nat.toDigits 10 n, c.isDigit = true :=
  toDigitsCore_all_isDigit (n + 1) n [] (by simp)

/-- For a counter that is not negative every character of the field is a
decimal digit and there are at least three of them. -/
theorem specNNN_digits (v : Int) (h : 0 ≤ v) :
    digitCount (specNNN v) = (specNNN v).length ∧ 3 ≤ (specNNN v).length := by
  have hn : ¬ v < 0 := by omega
  have hall : ∀ c ∈ zeroPad 3 (Nat.toDigits 10 v.toNat), c.isDigit = true := by
    intro c hc
    unfold zeroPad at hc
    rcases List.mem_append.mp hc with hc | hc
    · rw [(List.mem_replicate.mp hc).2]
      decide
    · exact toDigits_all_isDigit _ c hc
  constructor
  · simp only [digitCount, specNNN, decimal, hn, if_false, String.length]
    rw [List.filter_eq_self.mpr hall]
  · simp only [specNNN, decimal, hn, if_false, String.length, zeroPad, List.length_append,
      List.length_replicate]
    omega

namespace V3Global

/-- C7, the claim at a counter forced to `-5`: `sprintf` pads after the
sign, so the name is `out/Vtop_-05_elab`, whose number field has two digits
and is not the decimal representation `-5` padded on the left. -/
theorem debugFilename_negative_counter :
    ((ctor exampleOpt).debugFilename "elab" (-5)).2.m_debugFileNumber = -5 ∧
    ((ctor exampleOpt).debugFilename "elab" (-5)).1 = "out/Vtop_-05_elab" ∧
    specDebugFilename "out" "Vtop" (-5) "elab" = "out/Vtop_0-5_elab" ∧
    ((ctor exampleOpt).debugFilename "elab" (-5)).1 ≠ specDebugFilename "out" "Vtop" (-5) "elab" ∧
    digitCount (sprintf03d (-5)) = 2 := by
  refine ⟨by decide, by decide, by decide, by decide, by decide⟩

/-- C7 as amended: whenever the counter after the update is not negative,
`debugFilename` returns outputDir + "/" + prefix + "_" + NNN + "_" + comment
with NNN the decimal representation of the counter padded on the left with
zeros to at least three digits; above 999 NNN is the plain decimal number
and has more than three digits. -/
theorem debugFilename_format (s : V3Global) (nameComment : String) (newNumber : Int)
    (h : 0 ≤ (s.debugFilename nameComment newNumber).2.m_debugFileNumber) :
    (s.debugFilename nameComment newNumber).1 =
      specDebugFilename s.opt.hierTopDataDir s.opt.prefixName
        (s.debugFilename nameComment newNumber).2.m_debugFileNumber nameComment ∧
    digitCount (specNNN (s.debugFilename nameComment newNumber).2.m_debugFileNumber)
      = (specNNN (s.debugFilename nameComment newNumber).2.m_debugFileNumber).length ∧
    3 ≤ (specNNN (s.debugFilename nameComment newNumber).2.m_debugFileNumber).length ∧
    (999 < (s.debugFilename nameComment newNumber).2.m_debugFileNumber →
      specNNN (s.debugFilename nameComment newNumber).2.m_debugFileNumber
        = String.mk (decimal (s.debugFilename nameComment newNumber).2.m_debugFileNumber) ∧
      3 < (specNNN (s.debugFilename nameComment newNumber).2.m_debugFileNumber).length) := by
  rw [debugFilename_counter] at h
  rw [debugFilename_fst, debugFilename_counter]
  generalize debugFileNumberUpdate s.m_debugFileNumber newNumber = c at h ⊢
  have hn : ¬ c < 0 := by omega
  refine ⟨?_, (specNNN_digits c h).1, (specNNN_digits c h).2, ?_⟩
  · unfold specDebugFilename
    rw [sprintf03d_of_nonneg c h]
  · intro hbig
    have hlen : 3 < (Nat.toDigits 10 c.toNat).length :=
      toDigits_length_gt_three _ (by omega)
    have hpad : zeroPad 3 (Nat.toDigits 10 c.toNat) = Nat.toDigits 10 c.toNat :=
      zeroPad_of_le _ _ (by omega)
    simp only [specNNN, decimal, hn, if_false, hpad, String.length]
    exact ⟨trivial, hlen⟩

theorem debugFilename_format_witness :
    ((ctor exampleOpt).debugFilename "elab" 1234).1 =
      specDebugFilename "out" "Vtop" 1234 "elab" ∧
    3 ≤ (specNNN ((ctor exampleOpt).debugFilename "elab" 1234).2.m_debugFileNumber).length :=
  ⟨(debugFilename_format (ctor exampleOpt) "elab" 1234 (by decide)).1,
   (debugFilename_format (ctor exampleOpt) "elab" 1234 (by decide)).2.2.1⟩

/-- C8, the claim at the counter `INT_MAX` with no explicit number: the
increment wraps the `int` to `-2147483648`, the specified transition gives
`2147483648`. -/
theorem debugFileNumberUpdate_at_int_max :
    isInt 2147483647 ∧
    debugFileNumberUpdate 2147483647 0 = -2147483648 ∧
    specTransition 2147483647 0 = 2147483648 ∧
    debugFileNumberUpdate 2147483647 0 ≠ specTransition 2147483647 0 := by
  refine ⟨by decide, by decide, by decide, by decide⟩

/-- C8 as amended: for every counter value `c` of type `int` other than
`INT_MAX` and every explicit number `n`, incrementing first and then
overwriting with a non-zero `n` leaves the counter at the specified
transition `n if n != 0 else c + 1`; the number 0 acts as no number at all,
and the counter is 0 afterwards only when it counted up from `-1`. -/
theorem debugFileNumberUpdate_refines (c n : Int) (hc : isInt c) (hmax : c ≠ INT_MAX) :
    debugFileNumberUpdate c n = specTransition c n ∧
    debugFileNumberUpdate c 0 = c + 1 ∧
    (∀ (s : V3Global) (nameComment : String),
      s.debugFilename nameComment 0 = s.debugFilenameDefault nameComment) ∧
    (∀ m : Int, debugFileNumberUpdate c m = 0 → m = 0 ∧ c = -1) := by
  have hw : wrapInt (c + 1) = c + 1 := by
    unfold isInt INT_MIN INT_MAX at hc
    unfold INT_MAX at hmax
    exact wrapInt_of_isInt _ ⟨by unfold INT_MIN; omega, by unfold INT_MAX; omega⟩
  refine ⟨?_, ?_, fun _ _ => rfl, ?_⟩
  · by_cases h0 : n = 0
    · subst h0
      rw [debugFileNumberUpdate_zero, hw]
      simp [specTransition]
    · rw [debugFileNumberUpdate_of_ne_zero _ _ h0]
      simp [specTransition, h0]
  · rw [debugFileNumberUpdate_zero, hw]
  · intro m hm
    by_cases h0 : m = 0
    · subst h0
      rw [debugFileNumberUpdate_zero, hw] at hm
      exact ⟨rfl, by omega⟩
    · rw [debugFileNumberUpdate_of_ne_zero _ _ h0] at hm
      exact absurd hm h0

theorem debugFileNumberUpdate_refines_witness :
    debugFileNumberUpdate 41 50 = specTransition 41 50 ∧ debugFileNumberUpdate 41 0 = 41 + 1 :=
  ⟨(debugFileNumberUpdate_refines 41 50 (by decide) (by decide)).1,
   (debugFileNumberUpdate_refines 41 50 (by decide) (by decide)).2.1⟩

/-! ## Width-usage mode and flags -/

theorem run_append_single (ops : List Op) : ∀ (s s1 : V3Global) (op : Op),
    s.run ops = Except.ok s1 → s.run (ops ++ [op]) = s1.step op := by
  induction ops with
  | nil =>
    intro s s1 op h
    cases Except.ok.inj h
    show (match s.step op with
      | Except.ok s2 => run s2 []
      | Except.error msg => Except.error msg) = s.step op
    cases s.step op <;> rfl
  | cons o ops ih =>
    intro s s2 op h
    obtain ⟨s1, hs, hr⟩ := run_cons_ok s s2 o ops h
    show (match s.step o with
      | Except.ok s3 => run s3 (ops ++ [op])
      | Except.error msg => Except.error msg) = s2.step op
    rw [hs]
    exact ih s1 s2 op hr

theorem run_widthMinUsageSet_ok (ms : List VWidthMinUsage) : ∀ s : V3Global,
    ∃ s1, s.run (ms.map Op.widthMinUsageSet) = Except.ok s1 := by
  induction ms with
  | nil => intro s; exact ⟨s, rfl⟩
  | cons m ms ih =>
    intro s
    obtain ⟨s1, h1⟩ := ih (s.widthMinUsageSet m)
    exact ⟨s1, h1⟩

/-- C9: in every coordinator state and for every mode `m`, among them the
three enumerants, `widthMinUsage(m)` followed by `widthMinUsage()` returns
`m`; the setter does not fail, and after any sequence of sets, from any mode
to any other, the getter returns the value set last. -/
theorem widthMinUsage_set_get (s : V3Global) (m : VWidthMinUsage) (ms : List VWidthMinUsage) :
    (s.widthMinUsageSet m).widthMinUsage = m ∧
    (s.widthMinUsageSet (VWidthMinUsage.ofEn VWidthMinUsage.LINT_WIDTH)).widthMinUsage
      = VWidthMinUsage.ofEn VWidthMinUsage.LINT_WIDTH ∧
    (s.widthMinUsageSet (VWidthMinUsage.ofEn VWidthMinUsage.MATCHES_WIDTH)).widthMinUsage
      = VWidthMinUsage.ofEn VWidthMinUsage.MATCHES_WIDTH ∧
    (s.widthMinUsageSet (VWidthMinUsage.ofEn VWidthMinUsage.VERILOG_WIDTH)).widthMinUsage
      = VWidthMinUsage.ofEn VWidthMinUsage.VERILOG_WIDTH ∧
    s.step (Op.widthMinUsageSet m) = Except.ok (s.widthMinUsageSet m) ∧
    (∃ s1, s.run (ms.map Op.widthMinUsageSet ++ [Op.widthMinUsageSet m]) = Except.ok s1 ∧
      s1.widthMinUsage = m) := by
  refine ⟨rfl, rfl, rfl, rfl, rfl, ?_⟩
  obtain ⟨s1, h1⟩ := run_widthMinUsageSet_ok ms s
  exact ⟨s1.widthMinUsageSet m, run_append_single _ s s1 _ h1, rfl⟩

/-- C10: each of the six flag setters, called with any boolean `b`, changes
the list of flags at its own position only and leaves the width-usage mode,
the debug counter, the netlist root, the hier-block plan, the identity map
and the options as they were; `needHeavy(true)` alters neither `dpi()` nor
`useParallelBuild()`. -/
theorem flag_setters_frame (s : V3Global) (b : Bool) :
    ((s.needHeavySet b).flags = s.flags.set 0 b ∧
      (s.needHeavySet b).besidesFlags = s.besidesFlags) ∧
    ((s.needTraceDumperSet b).flags = s.flags.set 1 b ∧
      (s.needTraceDumperSet b).besidesFlags = s.besidesFlags) ∧
    ((s.dpiSet b).flags = s.flags.set 2 b ∧
      (s.dpiSet b).besidesFlags = s.besidesFlags) ∧
    ((s.useParallelBuildSet b).flags = s.flags.set 3 b ∧
      (s.useParallelBuildSet b).besidesFlags = s.besidesFlags) ∧
    ((s.constRemoveXsSet b).flags = s.flags.set 4 b ∧
      (s.constRemoveXsSet b).besidesFlags = s.besidesFlags) ∧
    ((s.assertDTypesResolvedSet b).flags = s.flags.set 5 b ∧
      (s.assertDTypesResolvedSet b).besidesFlags = s.besidesFlags) ∧
    (s.needHeavySet true).dpi = s.dpi ∧
    (s.needHeavySet true).useParallelBuild = s.useParallelBuild :=
  ⟨⟨rfl, rfl⟩, ⟨rfl, rfl⟩, ⟨rfl, rfl⟩, ⟨rfl, rfl⟩, ⟨rfl, rfl⟩, ⟨rfl, rfl⟩, rfl, rfl⟩

/-! ## Reads before any install, flag round trips -/

theorem run_rootp_of_no_boot (ops : List Op) :
    ∀ (s s1 : V3Global), (∀ op ∈ ops, ∀ k, op ≠ Op.boot k) → s.run ops = Except.ok s1 →
      s1.m_rootp = s.m_rootp := by
  induction ops with
  | nil =>
    intro s s1 _ h
    cases Except.ok.inj h
    rfl
  | cons op ops ih =>
    intro s s2 hops h
    obtain ⟨s1, hs, hr⟩ := run_cons_ok s s2 op ops h
    have h1 := step_rootp_of_not_boot s s1 op (hops op (List.mem_cons_self op ops)) hs
    rw [ih s1 s2 (fun o ho => hops o (List.mem_cons_of_mem op ho)) hr, h1]

/-- C11, the claim on a fresh coordinator: `rootp()` before any `boot()`
returns the null handle to the caller, and the call does not fail. -/
theorem rootp_before_boot_returns_null :
    (ctor exampleOpt).rootp = nullptr ∧
    (ctor exampleOpt).step Op.rootp = Except.ok (ctor exampleOpt) ∧
    ¬ (∃ msg, (ctor exampleOpt).step Op.rootp = Except.error msg) := by
  refine ⟨rfl, rfl, ?_⟩
  rintro ⟨msg, h⟩
  cases h

/-- C11 as amended: on a coordinator on which `boot()` has not been called,
whatever other calls were made, `rootp()` does not fail and returns the null
handle to the caller. -/
theorem rootp_before_boot (opt : V3Options) (ops : List Op) (s : V3Global)
    (hops : ∀ op ∈ ops, ∀ k, op ≠ Op.boot k) (h : (ctor opt).run ops = Except.ok s) :
    s.rootp = nullptr ∧ s.step Op.rootp = Except.ok s := by
  refine ⟨?_, rfl⟩
  show s.m_rootp = nullptr
  rw [run_rootp_of_no_boot ops (ctor opt) s hops h]
  rfl

theorem rootp_before_boot_witness :
    ∃ s, (ctor exampleOpt).run [Op.hierPlanpSet 3, Op.debugFilename "elab" 0, Op.dpiSet true]
        = Except.ok s ∧ s.rootp = nullptr ∧ s.step Op.rootp = Except.ok s :=
  ⟨_, rfl, rootp_before_boot exampleOpt
    [Op.hierPlanpSet 3, Op.debugFilename "elab" 0, Op.dpiSet true] _
    (by
      intro op hop k
      simp only [List.mem_cons, List.mem_singleton, List.mem_nil_iff, or_false] at hop
      rcases hop with rfl | rfl | rfl <;> (intro hk; cases hk))
    rfl⟩

/-- C12: on a freshly constructed coordinator `widthMinUsage()` returns
`LINT_WIDTH`, `hierPlanp()` returns the null plan and
`assertDTypesResolved()` returns false; none of the three reads fails or
changes the coordinator. -/
theorem fresh_coordinator_reads (opt : V3Options) :
    (ctor opt).widthMinUsage = VWidthMinUsage.ofEn VWidthMinUsage.LINT_WIDTH ∧
    (ctor opt).widthMinUsage = VWidthMinUsage.ctor ∧
    VWidthMinUsage.eqEnR (ctor opt).widthMinUsage VWidthMinUsage.LINT_WIDTH = true ∧
    (ctor opt).hierPlanp = nullptr ∧
    (ctor opt).assertDTypesResolved = false ∧
    (ctor opt).step Op.widthMinUsage = Except.ok (ctor opt) ∧
    (ctor opt).step Op.hierPlanp = Except.ok (ctor opt) ∧
    (ctor opt).step Op.assertDTypesResolved = Except.ok (ctor opt) :=
  ⟨rfl, rfl, rfl, rfl, rfl, rfl, rfl, rfl⟩

/-- C13: for each of the six flags, in every state and for every boolean
`b`, the setter called with `b` followed by the getter returns `b`; setting
false after true returns false, and `assertDTypesResolved(true)` followed by
`assertDTypesResolved()` returns true. -/
theorem flag_set_get (s : V3Global) (b : Bool) :
    (s.needHeavySet b).needHeavy = b ∧
    (s.needTraceDumperSet b).needTraceDumper = b ∧
    (s.dpiSet b).dpi = b ∧
    (s.useParallelBuildSet b).useParallelBuild = b ∧
    (s.constRemoveXsSet b).constRemoveXs = b ∧
    (s.assertDTypesResolvedSet b).assertDTypesResolved = b ∧
    ((s.needHeavySet true).needHeavySet false).needHeavy = false ∧
    ((s.needTraceDumperSet true).needTraceDumperSet false).needTraceDumper = false ∧
    ((s.dpiSet true).dpiSet false).dpi = false ∧
    ((s.useParallelBuildSet true).useParallelBuildSet false).useParallelBuild = false ∧
    ((s.constRemoveXsSet true).constRemoveXsSet false).constRemoveXs = false ∧
    ((s.assertDTypesResolvedSet true).assertDTypesResolvedSet false).assertDTypesResolved
      = false ∧
    (s.assertDTypesResolvedSet true).assertDTypesResolved = true :=
  ⟨rfl, rfl, rfl, rfl, rfl, rfl, rfl, rfl, rfl, rfl, rfl, rfl, rfl⟩

end V3Global

/-! ## The value type `VWidthMinUsage` -/

namespace VWidthMinUsage

/-- C14, the claim at the int argument `7`: `VWidthMinUsage(7)` holds the
value `7` of the underlying `uint8_t`, which is none of the three modes. -/
theorem ofInt_seven_not_valid :
    (ofInt 7).m_e = 7 ∧ (ofInt 7).toEn ≠ LINT_WIDTH ∧ (ofInt 7).toEn ≠ MATCHES_WIDTH ∧
    (ofInt 7).toEn ≠ VERILOG_WIDTH ∧ ¬ (ofInt 7).isValidMode := by
  refine ⟨by decide, by decide, by decide, by decide, by decide⟩

/-- C14 as amended: a value made by the default constructor, from one of
the three enumerants, or by the explicit constructor from one of the ints 0,
1, 2 holds one of the three modes `LINT_WIDTH`, `MATCHES_WIDTH`,
`VERILOG_WIDTH`. -/
theorem constructed_isValidMode (i : Int) (h0 : 0 ≤ i) (h2 : i ≤ 2) :
    ctor.isValidMode ∧ (ofEn LINT_WIDTH).isValidMode ∧ (ofEn MATCHES_WIDTH).isValidMode ∧
    (ofEn VERILOG_WIDTH).isValidMode ∧ (ofInt i).isValidMode ∧
    (ofInt 0 = ofEn LINT_WIDTH ∧ ofInt 1 = ofEn MATCHES_WIDTH ∧ ofInt 2 = ofEn VERILOG_WIDTH) := by
  refine ⟨by decide, by decide, by decide, by decide, ?_, by decide, by decide, by decide⟩
  have hi : i = 0 ∨ i = 1 ∨ i = 2 := by omega
  rcases hi with rfl | rfl | rfl <;> decide

theorem constructed_isValidMode_witness :
    (ofInt 1).isValidMode ∧ ofInt 1 = ofEn MATCHES_WIDTH :=
  ⟨(constructed_isValidMode 1 (by decide) (by decide)).2.2.2.2.1,
   (constructed_isValidMode 1 (by decide) (by decide)).2.2.2.2.2.2.1⟩

/-- C15: the three overloads of `operator==` compare the stored modes:
`a == b` holds exactly when `a` and `b` hold the same mode, `a == e` and
`e == a` hold exactly when `a` holds `e` and agree with the comparison against
an instance made from `e`; the relation is reflexive, symmetric and
transitive. -/
theorem operator_eq_is_value_equality (a b c : VWidthMinUsage) (e : en) :
    (eqInst a b = true ↔ a.toEn = b.toEn) ∧
    (eqInst a b = true ↔ a = b) ∧
    (eqEnR a e = true ↔ a.toEn = e) ∧
    (eqEnL e a = true ↔ a.toEn = e) ∧
    eqEnR a e = eqInst a (ofEn e) ∧
    eqEnL e a = eqInst (ofEn e) a ∧
    eqEnR a e = eqEnL e a ∧
    eqInst a a = true ∧
    eqInst a b = eqInst b a ∧
    (eqInst a b = true → eqInst b c = true → eqInst a c = true) := by
  have hcomm : ∀ u v : Fin 256, (u == v) = (v == u) := by
    intro u v
    by_cases h : u = v
    · rw [h]
    · have h1 : (u == v) = false := beq_false_of_ne h
      have h2 : (v == u) = false := beq_false_of_ne (fun h3 => h h3.symm)
      rw [h1, h2]
  refine ⟨?_, ?_, ?_, ?_, rfl, rfl, ?_, ?_, ?_, ?_⟩
  · exact beq_iff_eq
  · constructor
    · intro h
      have hm : a.m_e = b.m_e := beq_iff_eq.mp h
      cases a
      cases b
      cases hm
      rfl
    · intro h
      rw [h]
      exact beq_self_eq_true _
  · exact beq_iff_eq
  · constructor
    · intro h
      exact (beq_iff_eq.mp h).symm
    · intro h
      exact beq_iff_eq.mpr h.symm
  · exact hcomm a.m_e e
  · exact beq_self_eq_true _
  · exact hcomm a.m_e b.m_e
  · intro h1 h2
    exact beq_iff_eq.mpr ((beq_iff_eq.mp h1).trans (beq_iff_eq.mp h2))

theorem operator_eq_is_value_equality_witness :
    eqInst (ofInt 1) (ofEn MATCHES_WIDTH) = true ∧
    eqInst (ofEn MATCHES_WIDTH) (ofInt 257) = true ∧
    eqInst (ofInt 1) (ofInt 257) = true :=
  ⟨by decide, by decide,
   (operator_eq_is_value_equality (ofInt 1) (ofEn MATCHES_WIDTH) (ofInt 257)
      MATCHES_WIDTH).2.2.2.2.2.2.2.2.2 (by decide) (by decide)⟩

end VWidthMinUsage

namespace V3Global

/-- C18: the `hierPlanp` setter fails, with "call once", exactly when the
stored plan handle is not null; otherwise it stores its argument and leaves
every other member as it was.  With no plan stored a call passing the null
plan succeeds and leaves the coordinator as it was, so a later install still
succeeds. -/
theorem hierPlanpSet_fails_iff (s : V3Global) (plan q : Ptr) :
    (s.hierPlanpSet plan = Except.error "call once" ↔ s.m_hierPlanp ≠ nullptr) ∧
    ((∃ msg, s.hierPlanpSet plan = Except.error msg) ↔ s.m_hierPlanp ≠ nullptr) ∧
    (s.m_hierPlanp = nullptr →
      s.hierPlanpSet plan = Except.ok { s with m_hierPlanp := plan }) ∧
    (s.m_hierPlanp = nullptr →
      s.hierPlanpSet nullptr = Except.ok s ∧
      s.run [Op.hierPlanpSet nullptr, Op.hierPlanpSet q]
        = Except.ok { s with m_hierPlanp := q }) := by
  by_cases h0 : s.m_hierPlanp = nullptr
  · have hok := hierPlanpSet_of_null s plan h0
    have hnull : s.hierPlanpSet nullptr = Except.ok s := by
      rw [hierPlanpSet_of_null s nullptr h0, ← h0]
    refine ⟨?_, ?_, fun _ => hok, fun _ => ⟨hnull, ?_⟩⟩
    · rw [hok]
      exact ⟨fun h => (by cases h), fun h => absurd h0 h⟩
    · rw [hok]
      exact ⟨fun ⟨_, h⟩ => (by cases h), fun h => absurd h0 h⟩
    · show (match s.step (Op.hierPlanpSet nullptr) with
        | Except.ok s1 => run s1 [Op.hierPlanpSet q]
        | Except.error msg => Except.error msg) = _
      have hstep : s.step (Op.hierPlanpSet nullptr) = Except.ok s := hnull
      rw [hstep]
      show (match s.step (Op.hierPlanpSet q) with
        | Except.ok s1 => run s1 []
        | Except.error msg => Except.error msg) = _
      have hstep2 : s.step (Op.hierPlanpSet q) = Except.ok { s with m_hierPlanp := q } :=
        hierPlanpSet_of_null s q h0
      rw [hstep2]
      rfl
  · have herr := hierPlanpSet_of_nonnull s plan h0
    refine ⟨?_, ?_, fun h => absurd h h0, fun h => absurd h h0⟩
    · rw [herr]
      exact ⟨fun _ => h0, fun _ => rfl⟩
    · rw [herr]
      exact ⟨fun _ => h0, fun _ => ⟨_, rfl⟩⟩

theorem hierPlanpSet_fails_iff_witness :
    (ctor exampleOpt).hierPlanpSet nullptr = Except.ok (ctor exampleOpt) ∧
    (ctor exampleOpt).run [Op.hierPlanpSet nullptr, Op.hierPlanpSet 5]
      = Except.ok { ctor exampleOpt with m_hierPlanp := 5 } :=
  (hierPlanpSet_fails_iff (ctor exampleOpt) 3 5).2.2.2 rfl

end V3Global

/-! ## Decimal numerals: value, length, characters -/

theorem toDigitsCore_append (f : Nat) : ∀ (n : Nat) (acc : List Char),
    Nat.toDigitsCore 10 f n acc = Nat.toDigitsCore 10 f n [] ++ acc := by
  induction f with
  | zero => intro n acc; simp [Nat.toDigitsCore]
  | succ f ih =>
    intro n acc
    simp only [Nat.toDigitsCore]
    split
    · simp
    · rw [ih (n / 10) (Nat.digitChar (n % 10) :: acc), ih (n / 10) [Nat.digitChar (n % 10)]]
      simp

theorem digitChar_toNat (d : Nat) (h : d < 10) : (Nat.digitChar d).toNat - 48 = d := by
  interval_cases d <;> rfl

theorem digitsValue_append_single (l : List Char) (c : Char) :
    digitsValue (l ++ [c]) = 10 * digitsValue l + (c.toNat - 48) := by
  simp [digitsValue, List.foldl_append]

theorem digitsValue_toDigitsCore (f : Nat) : ∀ n : Nat, n < f →
    digitsValue (Nat.toDigitsCore 10 f n []) = n := by
  induction f with
  | zero => intro n h; omega
  | succ f ih =>
    intro n h
    simp only [Nat.toDigitsCore]
    split
    · rename_i h0
      have hn : n % 10 = n := by omega
      have hd := digitChar_toNat (n % 10) (Nat.mod_lt _ (by decide))
      show 10 * 0 + ((Nat.digitChar (n % 10)).toNat - 48) = n
      rw [hd, hn]
      omega
    · rename_i h0
      rw [toDigitsCore_append, digitsValue_append_single, ih (n / 10) (by omega),
        digitChar_toNat (n % 10) (Nat.mod_lt _ (by decide))]
      omega

theorem digitsValue_toDigits (n : Nat) : digitsValue (Nat.toDigits 10 n) = n :=
  digitsValue_toDigitsCore (n + 1) n (by omega)

theorem digitsValue_replicate_zero (k : Nat) (ds : List Char) :
    digitsValue (List.replicate k '0' ++ ds) = digitsValue ds := by
  induction k with
  | zero => simp
  | succ k ih =>
    have h : digitsValue (List.replicate (k + 1) '0' ++ ds)
        = digitsValue (List.replicate k '0' ++ ds) := by
      unfold digitsValue
      rw [List.replicate_succ, List.cons_append, List.foldl_cons]
      rfl
    rw [h, ih]

theorem append_underscore_split : ∀ (l1 l2 r1 r2 : List Char),
    (∀ c ∈ l1, c ≠ '_') → (∀ c ∈ l2, c ≠ '_') → l1 ++ '_' :: r1 = l2 ++ '_' :: r2 →
    l1 = l2 ∧ r1 = r2 := by
  intro l1
  induction l1 with
  | nil =>
    intro l2 r1 r2 _ h2 h
    cases l2 with
    | nil => exact ⟨rfl, List.tail_eq_of_cons_eq h⟩
    | cons c l2 =>
      have hc : '_' = c := List.head_eq_of_cons_eq h
      exact absurd hc.symm (h2 c (List.mem_cons_self c l2))
  | cons a l1 ih =>
    intro l2 r1 r2 h1 h2 h
    cases l2 with
    | nil =>
      have hc : a = '_' := List.head_eq_of_cons_eq h
      exact absurd hc (h1 a (List.mem_cons_self a l1))
    | cons c l2 =>
      have hh : a = c := List.head_eq_of_cons_eq h
      have ht : l1 ++ '_' :: r1 = l2 ++ '_' :: r2 := List.tail_eq_of_cons_eq h
      obtain ⟨e1, e2⟩ := ih l2 r1 r2 (fun x hx => h1 x (List.mem_cons_of_mem a hx))
        (fun x hx => h2 x (List.mem_cons_of_mem c hx)) ht
      exact ⟨by rw [hh, e1], e2⟩

theorem zeroPad_length (width : Nat) (ds : List Char) :
    (zeroPad width ds).length = max width ds.length := by
  simp only [zeroPad, List.length_append, List.length_replicate]
  omega

theorem zeroPad_all_isDigit (width : Nat) (ds : List Char) (h : ∀ c ∈ ds, c.isDigit = true) :
    ∀ c ∈ zeroPad width ds, c.isDigit = true := by
  intro c hc
  unfold zeroPad at hc
  rcases List.mem_append.mp hc with hc | hc
  · rw [(List.mem_replicate.mp hc).2]
    decide
  · exact h c hc

theorem digitsValue_zeroPad (width : Nat) (ds : List Char) :
    digitsValue (zeroPad width ds) = digitsValue ds :=
  digitsValue_replicate_zero _ ds

theorem toDigits_length_le_ten (n : Nat) (h : n < 10000000000) :
    (Nat.toDigits 10 n).length ≤ 10 :=
  Nat.toDigitsCore_length 10 (by decide) (n + 1) n 10 (by norm_num; exact h) (by decide)

/-- A text of digits that is not empty denotes the number of its digits. -/
theorem sprintfValue_of_digits (l : List Char) (hne : l ≠ [])
    (h : ∀ c ∈ l, c.isDigit = true) : sprintfValue l = ((digitsValue l : Nat) : Int) := by
  cases l with
  | nil => exact absurd rfl hne
  | cons c cs =>
    have hc : c ≠ '-' := by
      intro hc
      have hd := h c (List.mem_cons_self c cs)
      rw [hc] at hd
      exact absurd hd (by decide)
    simp [sprintfValue, hc]

/-- Reading back what `%03d` wrote gives the number that was written. -/
theorem sprintfValue_sprintf03d (v : Int) : sprintfValue (sprintf03d v).data = v := by
  by_cases hv : v < 0
  · have hd : (sprintf03d v).data = '-' :: zeroPad 2 (Nat.toDigits 10 v.natAbs) := by
      simp [sprintf03d, hv]
    rw [hd]
    simp only [sprintfValue, if_true, digitsValue_zeroPad, digitsValue_toDigits]
    omega
  · have hd : (sprintf03d v).data = zeroPad 3 (Nat.toDigits 10 v.toNat) := by
      simp [sprintf03d, hv]
    rw [hd, sprintfValue_of_digits _ _ (zeroPad_all_isDigit 3 _ (toDigits_all_isDigit _)),
      digitsValue_zeroPad, digitsValue_toDigits]
    · omega
    · intro h0
      have hl := zeroPad_length 3 (Nat.toDigits 10 v.toNat)
      rw [h0, List.length_nil] at hl
      have hmax := Nat.le_max_left 3 (Nat.toDigits 10 v.toNat).length
      omega

theorem sprintf03d_injective (v w : Int) (h : sprintf03d v = sprintf03d w) : v = w := by
  rw [← sprintfValue_sprintf03d v, ← sprintfValue_sprintf03d w, h]

theorem sprintf03d_no_underscore (v : Int) : ∀ c ∈ (sprintf03d v).data, c ≠ '_' := by
  have hdig : ∀ c : Char, c.isDigit = true → c ≠ '_' := by
    intro c hc h0
    rw [h0] at hc
    exact absurd hc (by decide)
  intro c hc
  by_cases hv : v < 0
  · have hd : (sprintf03d v).data = '-' :: zeroPad 2 (Nat.toDigits 10 v.natAbs) := by
      simp [sprintf03d, hv]
    rw [hd] at hc
    rcases List.mem_cons.mp hc with rfl | hc
    · decide
    · exact hdig c (zeroPad_all_isDigit 2 _ (toDigits_all_isDigit _) c hc)
  · have hd : (sprintf03d v).data = zeroPad 3 (Nat.toDigits 10 v.toNat) := by
      simp [sprintf03d, hv]
    rw [hd] at hc
    exact hdig c (zeroPad_all_isDigit 3 _ (toDigits_all_isDigit _) c hc)

theorem sprintf03d_length (v : Int) (h : isInt v) :
    3 ≤ (sprintf03d v).length ∧ (sprintf03d v).length ≤ 11 := by
  unfold isInt INT_MIN INT_MAX at h
  by_cases hv : v < 0
  · have hd : (sprintf03d v).data = '-' :: zeroPad 2 (Nat.toDigits 10 v.natAbs) := by
      simp [sprintf03d, hv]
    have hl := toDigits_length_le_ten v.natAbs (by omega)
    show 3 ≤ (sprintf03d v).data.length ∧ (sprintf03d v).data.length ≤ 11
    rw [hd, List.length_cons, zeroPad_length]
    omega
  · have hd : (sprintf03d v).data = zeroPad 3 (Nat.toDigits 10 v.toNat) := by
      simp [sprintf03d, hv]
    have hl := toDigits_length_le_ten v.toNat (by omega)
    show 3 ≤ (sprintf03d v).data.length ∧ (sprintf03d v).data.length ≤ 11
    rw [hd, zeroPad_length]
    omega

theorem wrapInt_isInt (x : Int) : isInt (wrapInt x) := by
  unfold isInt INT_MIN INT_MAX wrapInt
  omega

/-- Names with the same directory and prefix are equal only for equal
counters and equal comments. -/
theorem name_injective (dir pre : String) (k1 k2 : Int) (c1 c2 : String)
    (h : dir ++ "/" ++ pre ++ "_" ++ sprintf03d k1 ++ "_" ++ c1
      = dir ++ "/" ++ pre ++ "_" ++ sprintf03d k2 ++ "_" ++ c2) : k1 = k2 ∧ c1 = c2 := by
  have hd := congrArg String.data h
  simp only [String.data_append, List.append_assoc] at hd
  have h1 := List.append_cancel_left (List.append_cancel_left
    (List.append_cancel_left (List.append_cancel_left hd)))
  have h2 : (sprintf03d k1).data ++ '_' :: c1.data = (sprintf03d k2).data ++ '_' :: c2.data := h1
  obtain ⟨e1, e2⟩ := append_underscore_split _ _ _ _ (sprintf03d_no_underscore k1)
    (sprintf03d_no_underscore k2) h2
  exact ⟨sprintf03d_injective k1 k2 (String.ext e1), String.ext e2⟩

namespace V3Global

/-- Every name of a run without numbers carries a counter above the one the
run started from, as long as the counter stays below the wrap. -/
theorem debugFilenameRun_names (cs : List String) : ∀ (s : V3Global) (name : String),
    isInt s.m_debugFileNumber → s.m_debugFileNumber + cs.length ≤ INT_MAX →
    name ∈ s.debugFilenameRun cs →
    ∃ (k : Int) (c : String), s.m_debugFileNumber < k ∧
      name = s.opt.hierTopDataDir ++ "/" ++ s.opt.prefixName ++ "_" ++ sprintf03d k ++ "_" ++ c := by
  induction cs with
  | nil =>
    intro s name _ _ hmem
    cases hmem
  | cons c cs ih =>
    intro s name hint hmax hmem
    have hlen : ((c :: cs).length : Int) = (cs.length : Int) + 1 := by
      simp
    rw [hlen] at hmax
    have hw : wrapInt (s.m_debugFileNumber + 1) = s.m_debugFileNumber + 1 := by
      apply wrapInt_of_isInt
      unfold isInt INT_MIN INT_MAX at *
      omega
    have hcount : (s.debugFilenameDefault c).2.m_debugFileNumber = s.m_debugFileNumber + 1 := by
      unfold debugFilenameDefault
      rw [debugFilename_counter, debugFileNumberUpdate_zero, hw]
    rcases List.mem_cons.mp hmem with hhead | htail
    · refine ⟨s.m_debugFileNumber + 1, c, by omega, ?_⟩
      rw [hhead]
      unfold debugFilenameDefault
      rw [debugFilename_fst, debugFileNumberUpdate_zero, hw]
    · obtain ⟨k, c2, hk, hname⟩ := ih (s.debugFilenameDefault c).2 name
        (by rw [hcount]; unfold isInt INT_MIN INT_MAX at *; omega)
        (by rw [hcount]; omega) htail
      rw [hcount] at hk
      exact ⟨k, c2, by omega, hname⟩

theorem debugFilenameRun_nodup (cs : List String) : ∀ (s : V3Global),
    isInt s.m_debugFileNumber → s.m_debugFileNumber + cs.length ≤ INT_MAX →
    (s.debugFilenameRun cs).Nodup := by
  induction cs with
  | nil =>
    intro s _ _
    exact List.nodup_nil
  | cons c cs ih =>
    intro s hint hmax
    have hlen : ((c :: cs).length : Int) = (cs.length : Int) + 1 := by
      simp
    rw [hlen] at hmax
    have hw : wrapInt (s.m_debugFileNumber + 1) = s.m_debugFileNumber + 1 := by
      apply wrapInt_of_isInt
      unfold isInt INT_MIN INT_MAX at *
      omega
    have hcount : (s.debugFilenameDefault c).2.m_debugFileNumber = s.m_debugFileNumber + 1 := by
      unfold debugFilenameDefault
      rw [debugFilename_counter, debugFileNumberUpdate_zero, hw]
    have hint1 : isInt (s.debugFilenameDefault c).2.m_debugFileNumber := by
      rw [hcount]; unfold isInt INT_MIN INT_MAX at *; omega
    have hmax1 : (s.debugFilenameDefault c).2.m_debugFileNumber + cs.length ≤ INT_MAX := by
      rw [hcount]; omega
    show ((s.debugFilenameDefault c).1 :: (s.debugFilenameDefault c).2.debugFilenameRun cs).Nodup
    refine List.nodup_cons.mpr ⟨?_, ih _ hint1 hmax1⟩
    intro hmem
    obtain ⟨k, c2, hk, hname⟩ := debugFilenameRun_names cs _ _ hint1 hmax1 hmem
    have hhead : (s.debugFilenameDefault c).1 =
        s.opt.hierTopDataDir ++ "/" ++ s.opt.prefixName ++ "_" ++
          sprintf03d (s.m_debugFileNumber + 1) ++ "_" ++ c := by
      unfold debugFilenameDefault
      rw [debugFilename_fst, debugFileNumberUpdate_zero, hw]
    have hopt : (s.debugFilenameDefault c).2.opt = s.opt := rfl
    rw [hhead, hopt] at hname
    have hk2 := (name_injective _ _ _ _ _ _ hname).1
    rw [hcount] at hk
    omega

/-- C17: for every value of the 32-bit `int` counter, negative ones
included, `%03d` writes at least 3 and at most 11 characters, which with the
terminator fit into the buffer `digits[100]`; whatever the state and the
`int` passed as number, the counter that is formatted is such a value and
the call returns a name. -/
theorem debugFilename_digits_fit (v : Int) (h : isInt v) (s : V3Global) (nameComment : String)
    (newNumber : Int) (hn : isInt newNumber) :
    3 ≤ (sprintf03d v).length ∧ (sprintf03d v).length ≤ 11 ∧
    (sprintf03d v).length + 1 ≤ digitsSize ∧
    isInt (s.debugFilename nameComment newNumber).2.m_debugFileNumber ∧
    (sprintf03d (s.debugFilename nameComment newNumber).2.m_debugFileNumber).length + 1
      ≤ digitsSize ∧
    s.step (Op.debugFilename nameComment newNumber)
      = Except.ok (s.debugFilename nameComment newNumber).2 := by
  have hc : isInt (s.debugFilename nameComment newNumber).2.m_debugFileNumber := by
    rw [debugFilename_counter]
    by_cases h0 : newNumber = 0
    · rw [h0, debugFileNumberUpdate_zero]
      exact wrapInt_isInt _
    · rw [debugFileNumberUpdate_of_ne_zero _ _ h0]
      exact hn
  have h1 := sprintf03d_length v h
  have h2 := sprintf03d_length _ hc
  refine ⟨h1.1, h1.2, ?_, hc, ?_, rfl⟩
  · unfold digitsSize
    omega
  · unfold digitsSize
    omega

theorem debugFilename_digits_fit_witness :
    3 ≤ (sprintf03d (-2147483648)).length ∧ (sprintf03d (-2147483648)).length ≤ 11 ∧
    isInt ((ctor exampleOpt).debugFilename "elab" (-5)).2.m_debugFileNumber :=
  ⟨(debugFilename_digits_fit (-2147483648) (by decide) (ctor exampleOpt) "elab" (-5)
      (by decide)).1,
   (debugFilename_digits_fit (-2147483648) (by decide) (ctor exampleOpt) "elab" (-5)
      (by decide)).2.1,
   (debugFilename_digits_fit (-2147483648) (by decide) (ctor exampleOpt) "elab" (-5)
      (by decide)).2.2.2.1⟩

/-- C19: with the same directory and prefix two requests return the same
name only if they carry the same counter value and the same comment; hence
the names of a run of calls without a number, as long as the `int` counter
does not pass `INT_MAX`, are pairwise distinct. -/
theorem debugFilename_names_injective :
    (∀ (s1 s2 : V3Global) (c1 c2 : String) (n1 n2 : Int), s1.opt = s2.opt →
      (s1.debugFilename c1 n1).1 = (s2.debugFilename c2 n2).1 →
      (s1.debugFilename c1 n1).2.m_debugFileNumber
        = (s2.debugFilename c2 n2).2.m_debugFileNumber ∧ c1 = c2) ∧
    (∀ (s : V3Global) (cs : List String), isInt s.m_debugFileNumber →
      s.m_debugFileNumber + cs.length ≤ INT_MAX → (s.debugFilenameRun cs).Nodup) := by
  refine ⟨?_, fun s cs hint hmax => debugFilenameRun_nodup cs s hint hmax⟩
  intro s1 s2 c1 c2 n1 n2 hopt h
  rw [debugFilename_fst, debugFilename_fst, hopt] at h
  rw [debugFilename_counter, debugFilename_counter]
  exact name_injective _ _ _ _ _ _ h

theorem debugFilename_names_injective_witness :
    ((ctor exampleOpt).debugFilenameRun ["elab", "elab", "link"]).Nodup ∧
    ((ctor exampleOpt).debugFilenameRun ["elab", "elab", "link"])
      = ["out/Vtop_001_elab", "out/Vtop_002_elab", "out/Vtop_003_link"] :=
  ⟨debugFilename_names_injective.2 (ctor exampleOpt) ["elab", "elab", "link"]
    (by decide) (by decide), by decide⟩

/-! ## The debug identity map -/

theorem idLabel_injective (i j : Nat) (h : idLabel i = idLabel j) : i = j := by
  have hd : Nat.toDigits 10 i = Nat.toDigits 10 j := congrArg String.data h
  rw [← digitsValue_toDigits i, ← digitsValue_toDigits j, hd]

theorem ptrToId_of_some (s : V3Global) (p : Ptr) (label : String)
    (h : s.m_ptrToId.lookup p = some label) : s.ptrToId p = (label, s) := by
  simp [ptrToId, h]

theorem ptrToId_of_none (s : V3Global) (p : Ptr) (h : s.m_ptrToId.lookup p = none) :
    s.ptrToId p = (idLabel s.m_ptrToId.length,
      { s with m_ptrToId := (p, idLabel s.m_ptrToId.length) :: s.m_ptrToId }) := by
  simp [ptrToId, h]

/-- After a lookup the identity is recorded with the label returned. -/
theorem ptrToId_recorded (s : V3Global) (p : Ptr) :
    (s.ptrToId p).2.m_ptrToId.lookup p = some (s.ptrToId p).1 := by
  cases h : s.m_ptrToId.lookup p with
  | some label =>
    rw [ptrToId_of_some s p label h]
    exact h
  | none =>
    rw [ptrToId_of_none s p h]
    simp [List.lookup]

/-- A lookup keeps every recorded pair. -/
theorem ptrToId_keeps (s : V3Global) (q k : Ptr) (label : String)
    (h : s.m_ptrToId.lookup k = some label) :
    (s.ptrToId q).2.m_ptrToId.lookup k = some label := by
  cases hq : s.m_ptrToId.lookup q with
  | some l2 =>
    rw [ptrToId_of_some s q l2 hq]
    exact h
  | none =>
    rw [ptrToId_of_none s q hq]
    have hne : k ≠ q := by
      intro hkq
      rw [hkq, hq] at h
      cases h
    show List.lookup k ((q, idLabel s.m_ptrToId.length) :: s.m_ptrToId) = some label
    rw [List.lookup_cons]
    have hb : (k == q) = false := beq_false_of_ne hne
    rw [hb]
    exact h

theorem ptrToId_length_le (s : V3Global) (q : Ptr) :
    s.m_ptrToId.length ≤ (s.ptrToId q).2.m_ptrToId.length := by
  cases hq : s.m_ptrToId.lookup q with
  | some l2 =>
    rw [ptrToId_of_some s q l2 hq]
  | none =>
    rw [ptrToId_of_none s q hq]
    exact Nat.le_succ _

theorem ptrToIdCalls_keeps (qs : List Ptr) : ∀ (s : V3Global) (k : Ptr) (label : String),
    s.m_ptrToId.lookup k = some label → (s.ptrToIdCalls qs).m_ptrToId.lookup k = some label := by
  induction qs with
  | nil =>
    intro s k label h
    exact h
  | cons q qs ih =>
    intro s k label h
    exact ih (s.ptrToId q).2 k label (ptrToId_keeps s q k label h)

theorem ptrToId_labelsInOrder (s : V3Global) (q : Ptr) (h : labelsInOrder s.m_ptrToId) :
    labelsInOrder (s.ptrToId q).2.m_ptrToId := by
  cases hq : s.m_ptrToId.lookup q with
  | some l2 =>
    rw [ptrToId_of_some s q l2 hq]
    exact h
  | none =>
    rw [ptrToId_of_none s q hq]
    exact ⟨rfl, hq, h⟩

theorem ptrToIdCalls_labelsInOrder (qs : List Ptr) : ∀ (s : V3Global),
    labelsInOrder s.m_ptrToId → labelsInOrder (s.ptrToIdCalls qs).m_ptrToId := by
  induction qs with
  | nil =>
    intro s h
    exact h
  | cons q qs ih =>
    intro s h
    exact ih (s.ptrToId q).2 (ptrToId_labelsInOrder s q h)

/-- A recorded label is the token of a position below the size of the map. -/
theorem labelsInOrder_lookup (m : List (Ptr × String)) : labelsInOrder m →
    ∀ (k : Ptr) (label : String), m.lookup k = some label →
      ∃ i, i < m.length ∧ label = idLabel i := by
  induction m with
  | nil =>
    intro _ k label h
    cases h
  | cons e m ih =>
    obtain ⟨p, l⟩ := e
    intro hwf k label h
    obtain ⟨hl, _, hm⟩ := hwf
    rw [List.lookup_cons] at h
    by_cases hk : k = p
    · have hb : (k == p) = true := beq_iff_eq.mpr hk
      rw [hb] at h
      cases h
      exact ⟨m.length, Nat.lt_succ_self _, hl⟩
    · have hb : (k == p) = false := beq_false_of_ne hk
      rw [hb] at h
      obtain ⟨i, hi, hlab⟩ := ih hm k label h
      exact ⟨i, Nat.lt_succ_of_lt hi, hlab⟩

/-- Two identities recorded in a map built by lookups have two labels. -/
theorem labelsInOrder_distinct (m : List (Ptr × String)) : labelsInOrder m →
    ∀ (p q : Ptr) (l1 l2 : String), p ≠ q → m.lookup p = some l1 → m.lookup q = some l2 →
      l1 ≠ l2 := by
  induction m with
  | nil =>
    intro _ p q l1 l2 _ h1
    cases h1
  | cons e m ih =>
    obtain ⟨k, l⟩ := e
    intro hwf p q l1 l2 hpq h1 h2 heq
    obtain ⟨hl, _, hm⟩ := hwf
    rw [List.lookup_cons] at h1 h2
    by_cases hp : p = k
    · have hbp : (p == k) = true := beq_iff_eq.mpr hp
      have hbq : (q == k) = false := beq_false_of_ne (fun hqk => hpq (hp.trans hqk.symm))
      rw [hbp] at h1
      rw [hbq] at h2
      cases h1
      obtain ⟨i, hi, hlab⟩ := labelsInOrder_lookup m hm q l2 h2
      have := idLabel_injective _ _ (hl.symm.trans (heq.trans hlab))
      omega
    · have hbp : (p == k) = false := beq_false_of_ne hp
      rw [hbp] at h1
      by_cases hq : q = k
      · have hbq : (q == k) = true := beq_iff_eq.mpr hq
        rw [hbq] at h2
        cases h2
        obtain ⟨i, hi, hlab⟩ := labelsInOrder_lookup m hm p l1 h1
        have := idLabel_injective _ _ (hlab.symm.trans (heq.trans hl))
        omega
      · have hbq : (q == k) = false := beq_false_of_ne hq
        rw [hbq] at h2
        exact ih hm p q l1 l2 hpq h1 h2 heq

/-- C16: a second `ptrToId(p)` returns the label of the first, whatever
identities were looked up in between; on a coordinator whose map was built
by lookups from the empty one, two identities get two labels; a lookup keeps
every recorded pair and does not shrink the map. -/
theorem ptrToId_stable_and_distinct (s : V3Global) (opt : V3Options) (before between : List Ptr)
    (p q : Ptr) :
    (((s.ptrToId p).2.ptrToIdCalls between).ptrToId p).1 = (s.ptrToId p).1 ∧
    (p ≠ q →
      (((((ctor opt).ptrToIdCalls before).ptrToId p).2.ptrToIdCalls between).ptrToId q).1
        ≠ (((ctor opt).ptrToIdCalls before).ptrToId p).1) ∧
    (∀ (k : Ptr) (label : String), s.m_ptrToId.lookup k = some label →
      (s.ptrToId q).2.m_ptrToId.lookup k = some label) ∧
    s.m_ptrToId.length ≤ (s.ptrToId q).2.m_ptrToId.length := by
  refine ⟨?_, ?_, fun k label h => ptrToId_keeps s q k label h, ptrToId_length_le s q⟩
  · have h1 := ptrToIdCalls_keeps between (s.ptrToId p).2 p _ (ptrToId_recorded s p)
    rw [ptrToId_of_some _ p _ h1]
  · intro hpq heq
    have hwf0 : labelsInOrder (ctor opt).m_ptrToId := trivial
    have hwf1 := ptrToId_labelsInOrder _ p (ptrToIdCalls_labelsInOrder before _ hwf0)
    have hwf2 := ptrToId_labelsInOrder _ q (ptrToIdCalls_labelsInOrder between _ hwf1)
    have hp := ptrToId_keeps _ q p _ (ptrToIdCalls_keeps between _ p _
      (ptrToId_recorded ((ctor opt).ptrToIdCalls before) p))
    have hq := ptrToId_recorded
      ((((ctor opt).ptrToIdCalls before).ptrToId p).2.ptrToIdCalls between) q
    exact labelsInOrder_distinct _ hwf2 p q _ _ hpq hp hq heq.symm

theorem ptrToId_stable_and_distinct_witness :
    (((ctor exampleOpt).ptrToIdCalls [4096]).ptrToId 8192).1 = "1" ∧
    (((((ctor exampleOpt).ptrToIdCalls [4096]).ptrToId 8192).2.ptrToIdCalls
      [4096, 12288]).ptrToId 16384).1 ≠ (((ctor exampleOpt).ptrToIdCalls [4096]).ptrToId 8192).1 :=
  ⟨by decide,
   (ptrToId_stable_and_distinct (ctor exampleOpt) exampleOpt [4096] [4096, 12288]
      8192 16384).2.1 (by decide)⟩

end V3Global

end V3
